import Mathlib

/- Shallow embedding of the cognitive-bias quiz application (src/app.py).

The Python program keeps a `Quiz` dataclass (list of claims, parallel list
of answers, cursor) plus two session flags `revealed` and `submitted`, and
mutates them through the callbacks `set_answer`, `go_prev`, `go_next`,
`restart_quiz`, the submit lambda, and the score computed in `show_results`.
Here the whole mutable session is a value of type `AppState`, each callback
becomes a function `AppState → AppState`, and the loader is modelled with
the candidate sources and the shuffle supplied as explicit parameters (the
Python loader reads files and uses `random.shuffle`, both external to the
state machine). -/

namespace Biases

/-- One claim record, mirroring the Python dataclass `CognitiveBias`. -/
structure CognitiveBias where
  title : String
  definition : String
  is_authentic : Bool
  reference : String
  category : String
deriving Repr, DecidableEq

/-- A raw record as it comes out of the JSON file: every field may be
absent, mirroring the `data.get(key, default)` calls in
`CognitiveBias.from_dict`. -/
structure RawBias where
  title : Option String
  definition : Option String
  is_authentic : Option Bool
  reference : Option String
  category : Option String
deriving Repr, DecidableEq

/-- Mirrors `CognitiveBias.from_dict`: apply the defaults. -/
def CognitiveBias.from_dict (d : RawBias) : CognitiveBias :=
  { title := d.title.getD ""
    definition := d.definition.getD ""
    is_authentic := d.is_authentic.getD false
    reference := d.reference.getD ""
    category := d.category.getD "" }

/-- Mirrors the Python dataclass `Answer`: both fields optional,
both `None` on construction. -/
structure Answer where
  value : Option Bool
  is_correct : Option Bool
deriving Repr, DecidableEq

/-- A freshly constructed `Answer()`. -/
def defaultAnswer : Answer := Answer.mk none none

/-- Default used where Python would index `q.biases`; the guards in the
operations keep every real access in bounds. -/
def defaultBias : CognitiveBias := CognitiveBias.mk "" "" false "" ""

/-- Mirrors the Python dataclass `Quiz`. -/
structure Quiz where
  biases : List CognitiveBias
  answers : List Answer
  current_index : Nat
deriving Repr, DecidableEq

/-- The per-session mutable state the callbacks act on: the quiz held in
`st.session_state.quiz` plus the `revealed` and `submitted` flags. -/
structure AppState where
  quiz : Quiz
  revealed : Bool
  submitted : Bool
deriving Repr, DecidableEq

/-- The one error of the loader: no candidate source yielded records
(surfaced by `st.stop()` in `load_and_shuffle_data`). -/
inductive LoadError where
  | noData
deriving Repr, DecidableEq

/-- Mirrors the loop in `load_and_shuffle_data`: `data` is the first
truthy (non-empty) result of `_try_and_load` over the candidate
filenames, or the empty list when every candidate yields nothing. -/
def firstFound (sources : List (List RawBias)) : List RawBias :=
  match sources with
  | [] => []
  | s :: rest => if s.isEmpty then firstFound rest else s

/-- Mirrors `load_and_shuffle_data`: stop (error) when no candidate source
has records, otherwise shuffle and truncate to `limit`. The shuffle is an
explicit parameter standing for `random.shuffle`. -/
def load_and_shuffle_data (shuffle : List RawBias → List RawBias)
    (sources : List (List RawBias)) (limit : Nat) : Except LoadError (List RawBias) :=
  let data := firstFound sources
  if data.isEmpty then Except.error LoadError.noData
  else Except.ok ((shuffle data).take limit)

/-- Mirrors `create_quiz`: load (limit 10), convert each record, pair every
bias with a fresh unanswered `Answer`, cursor at 0. -/
def create_quiz (shuffle : List RawBias → List RawBias)
    (sources : List (List RawBias)) : Except LoadError Quiz :=
  match load_and_shuffle_data shuffle sources 10 with
  | Except.error e => Except.error e
  | Except.ok data =>
      let biases := data.map CognitiveBias.from_dict
      Except.ok { biases := biases
                  answers := biases.map (fun _ => defaultAnswer)
                  current_index := 0 }

/-- A fresh session as `get_state` builds it: the quiz if creation
succeeded (`none` when the loader stopped), `revealed` and `submitted`
initialised to false. -/
structure Session where
  quiz : Option Quiz
  revealed : Bool
  submitted : Bool
deriving Repr, DecidableEq

/-- Mirrors `get_state` on a fresh session: try `create_quiz`, swallow the
stop and leave the session without a quiz on failure; initialise both
flags to false. -/
def get_state (shuffle : List RawBias → List RawBias)
    (sources : List (List RawBias)) : Session :=
  match create_quiz shuffle sources with
  | Except.error _ => { quiz := none, revealed := false, submitted := false }
  | Except.ok q => { quiz := some q, revealed := false, submitted := false }

/-- Mirrors `set_answer`: no-op when submitted or the cursor is past the
claim list; otherwise overwrite the current `Answer` with the value and
its derived correctness, and reveal. -/
def set_answer (value : Bool) (s : AppState) : AppState :=
  if s.submitted then s
  else
    let q := s.quiz
    let i := q.current_index
    if q.biases.length ≤ i then s
    else
      let bias := q.biases.getD i defaultBias
      let ans := Answer.mk (some value) (some (value == bias.is_authentic))
      { quiz := { biases := q.biases
                  answers := q.answers.set i ans
                  current_index := q.current_index }
        revealed := true
        submitted := s.submitted }

/-- Mirrors `go_prev`: no-op when submitted; decrement the cursor when
positive; then set `revealed` to whether the now-current answer has a
value. -/
def go_prev (s : AppState) : AppState :=
  if s.submitted then s
  else
    let q := s.quiz
    let i := if 0 < q.current_index then q.current_index - 1 else q.current_index
    let ans := q.answers.getD i defaultAnswer
    { quiz := { biases := q.biases, answers := q.answers, current_index := i }
      revealed := ans.value.isSome
      submitted := s.submitted }

/-- Mirrors `go_next`: no-op when submitted; increment the cursor when
below `len(biases) - 1`; then set `revealed` to whether the now-current
answer has a value. -/
def go_next (s : AppState) : AppState :=
  if s.submitted then s
  else
    let q := s.quiz
    let i := if q.current_index < q.biases.length - 1 then q.current_index + 1
             else q.current_index
    let ans := q.answers.getD i defaultAnswer
    { quiz := { biases := q.biases, answers := q.answers, current_index := i }
      revealed := ans.value.isSome
      submitted := s.submitted }

/-- Mirrors `all_answered`: every answer has a value. -/
def all_answered (q : Quiz) : Bool :=
  q.answers.all (fun a => a.value.isSome)

/-- Mirrors the "View Results" callback `setattr(state, "submitted", True)`. -/
def submit_quiz (s : AppState) : AppState :=
  { quiz := s.quiz, revealed := s.revealed, submitted := true }

/-- Mirrors `restart_quiz`: re-create the quiz (new shuffle, new load) and
reset both flags; propagates the loader stop as the error. -/
def restart_quiz (shuffle : List RawBias → List RawBias)
    (sources : List (List RawBias)) (s : AppState) : Except LoadError AppState :=
  match create_quiz shuffle sources with
  | Except.error e => Except.error e
  | Except.ok q => Except.ok { quiz := q, revealed := false, submitted := false }

/-- Mirrors the score computed in `show_results`:
`correct = sum(1 for a in q.answers if a.is_correct)` (a truthy test, so
`None` and `False` both count as not correct) and `total = len(q.biases)`;
returned as `(correct, total)`. -/
def score (q : Quiz) : Nat × Nat :=
  (q.answers.countP (fun a => a.is_correct.getD false), q.biases.length)

/-- States reachable through the app: a fresh session after a successful
`create_quiz`, closed under the five callbacks (with `restart_quiz`
allowed to use new sources and a new shuffle, as a rerun of the script
would). -/
inductive Reachable : AppState → Prop where
  | init (shuffle : List RawBias → List RawBias) (sources : List (List RawBias))
      (q : Quiz) :
      create_quiz shuffle sources = Except.ok q →
      Reachable { quiz := q, revealed := false, submitted := false }
  | answer_step (v : Bool) (s : AppState) : Reachable s → Reachable (set_answer v s)
  | prev_step (s : AppState) : Reachable s → Reachable (go_prev s)
  | next_step (s : AppState) : Reachable s → Reachable (go_next s)
  | submit_step (s : AppState) : Reachable s → Reachable (submit_quiz s)
  | restart_step (shuffle : List RawBias → List RawBias)
      (sources : List (List RawBias)) (s t : AppState) :
      Reachable s → restart_quiz shuffle sources s = Except.ok t → Reachable t

/-- The answers/claims consistency invariant: the two lists have equal
length and, at every index, `is_correct` is exactly `value` mapped through
comparison with the claim's ground truth (so it is set iff `value` is set,
and then equal to `value == is_authentic`). -/
def answersInv (q : Quiz) : Prop :=
  q.answers.length = q.biases.length ∧
  ∀ i, i < q.answers.length →
    (q.answers.getD i defaultAnswer).is_correct =
      (q.answers.getD i defaultAnswer).value.map
        (fun v => v == (q.biases.getD i defaultBias).is_authentic)

instance (q : Quiz) : Decidable (answersInv q) := by
  unfold answersInv
  exact instDecidableAnd

/-- A concrete claim with the given ground truth, for witnesses. -/
def biasW (auth : Bool) : CognitiveBias := CognitiveBias.mk "t" "d" auth "" ""

/-- A concrete three-question quiz (ground truths true, false, true), all
questions unanswered, cursor at 0. -/
def quizW : Quiz :=
  Quiz.mk [biasW true, biasW false, biasW true]
    [defaultAnswer, defaultAnswer, defaultAnswer] 0

/-- The fresh session holding `quizW`. -/
def stateW : AppState := AppState.mk quizW false false

/-- `stateW` after the user answers true, true, false in order: the run
behind the worked example in the spec. -/
def stateWFinal : AppState :=
  set_answer false (go_next (set_answer true (go_next (set_answer true stateW))))

/-- A submitted session, for the no-op witnesses. -/
def sSubmittedW : AppState := AppState.mk quizW true true

/-- A session at question 0 with the reveal panel open but question 0 not
answered, for the boundary-navigation witness. -/
def sRevealedW : AppState := AppState.mk quizW true false

/-- A raw record whose conversion yields `biasW auth`. -/
def rawW (auth : Bool) : RawBias := RawBias.mk (some "t") (some "d") (some auth) none none

/-- A concrete quiz in which every question has been answered correctly. -/
def quizAllCorrectW : Quiz :=
  Quiz.mk [biasW true, biasW false, biasW true]
    [Answer.mk (some true) (some true), Answer.mk (some false) (some true),
      Answer.mk (some true) (some true)] 2

/-- The session produced by restarting `sSubmittedW` with the identity
shuffle on the single source `[rawW true]`. -/
def tRestartW : AppState :=
  AppState.mk (Quiz.mk [biasW true] [defaultAnswer] 0) false false

/-- In-bounds `getElem?` agrees with `getD`. -/
lemma getD_of_lt {α : Type} (l : List α) (i : Nat) (d : α) (h : i < l.length) :
    l[i]? = some (l.getD i d) := by
  simp [List.getD_eq_getElem?_getD, List.getElem?_eq_getElem h]

/-- C6: on a submitted quiz, `answer`, `goPrev` and `goNext` are defensive
no-ops: no error is raised and the whole state (quiz, both flags) is
returned unchanged, so no answer can change after submission through these
transitions. -/
theorem submitted_transitions_noop (s : AppState) (v : Bool)
    (h : s.submitted = true) :
    set_answer v s = s ∧ go_prev s = s ∧ go_next s = s := by
  refine ⟨?_, ?_, ?_⟩ <;> simp [set_answer, go_prev, go_next, h]

/-- Witness for C6 at a concrete submitted state. -/
theorem submitted_transitions_noop_witness :
    set_answer true sSubmittedW = sSubmittedW ∧
    go_prev sSubmittedW = sSubmittedW ∧ go_next sSubmittedW = sSubmittedW :=
  submitted_transitions_noop sSubmittedW true rfl

/-- C2: on an unsubmitted quiz with the cursor in bounds, `answer v` writes
the current answer to `v` with its derived correctness and reveals; a
second `answer w` on the same index overwrites the pair (last write wins)
and keeps the panel revealed. -/
theorem answer_sets_current (s : AppState) (v w : Bool)
    (hsub : s.submitted = false)
    (hlen : s.quiz.answers.length = s.quiz.biases.length)
    (hidx : s.quiz.current_index < s.quiz.biases.length) :
    ∃ b, s.quiz.biases[s.quiz.current_index]? = some b ∧
      (set_answer v s).quiz.answers[s.quiz.current_index]? =
        some (Answer.mk (some v) (some (v == b.is_authentic))) ∧
      (set_answer v s).revealed = true ∧
      (set_answer w (set_answer v s)).quiz.answers[s.quiz.current_index]? =
        some (Answer.mk (some w) (some (w == b.is_authentic))) ∧
      (set_answer w (set_answer v s)).revealed = true := by
  have hng : ¬ s.quiz.biases.length ≤ s.quiz.current_index := Nat.not_le.mpr hidx
  have hia : s.quiz.current_index < s.quiz.answers.length := by omega
  refine ⟨s.quiz.biases.getD s.quiz.current_index defaultBias,
    getD_of_lt _ _ _ hidx, ?_, ?_, ?_, ?_⟩ <;>
    simp [set_answer, hsub, hng, List.set_set, List.getElem?_set_self, hia]

/-- Witness for C2 at the concrete fresh session `stateW`. -/
theorem answer_sets_current_witness :
    ∃ b, stateW.quiz.biases[stateW.quiz.current_index]? = some b ∧
      (set_answer true stateW).quiz.answers[stateW.quiz.current_index]? =
        some (Answer.mk (some true) (some (true == b.is_authentic))) ∧
      (set_answer true stateW).revealed = true ∧
      (set_answer false (set_answer true stateW)).quiz.answers[stateW.quiz.current_index]? =
        some (Answer.mk (some false) (some (false == b.is_authentic))) ∧
      (set_answer false (set_answer true stateW)).revealed = true :=
  answer_sets_current stateW true false rfl rfl (by decide)

/-- C3: on an unsubmitted quiz with the cursor in bounds, `goPrev` moves
the cursor to `currentIndex - 1` (floored at 0) and `goNext` to
`min (currentIndex + 1) (N - 1)` (capped at the last question), and after
either move `revealed` equals whether the newly current question's answer
has a set value. -/
theorem nav_moves_and_reveals (s : AppState)
    (hsub : s.submitted = false)
    (hlen : s.quiz.answers.length = s.quiz.biases.length)
    (hidx : s.quiz.current_index < s.quiz.biases.length) :
    ∃ ap an,
      s.quiz.answers[s.quiz.current_index - 1]? = some ap ∧
      s.quiz.answers[min (s.quiz.current_index + 1) (s.quiz.biases.length - 1)]? =
        some an ∧
      (go_prev s).quiz.current_index = s.quiz.current_index - 1 ∧
      (go_prev s).revealed = ap.value.isSome ∧
      (go_next s).quiz.current_index =
        min (s.quiz.current_index + 1) (s.quiz.biases.length - 1) ∧
      (go_next s).revealed = an.value.isSome := by
  have hp : (if 0 < s.quiz.current_index then s.quiz.current_index - 1
      else s.quiz.current_index) = s.quiz.current_index - 1 := by
    split <;> omega
  have hn : (if s.quiz.current_index < s.quiz.biases.length - 1 then
      s.quiz.current_index + 1 else s.quiz.current_index) =
      min (s.quiz.current_index + 1) (s.quiz.biases.length - 1) := by
    split <;> omega
  have hpa : s.quiz.current_index - 1 < s.quiz.answers.length := by omega
  have hna : min (s.quiz.current_index + 1) (s.quiz.biases.length - 1) <
      s.quiz.answers.length := by omega
  refine ⟨s.quiz.answers.getD (s.quiz.current_index - 1) defaultAnswer,
    s.quiz.answers.getD (min (s.quiz.current_index + 1) (s.quiz.biases.length - 1))
      defaultAnswer,
    getD_of_lt _ _ _ hpa, getD_of_lt _ _ _ hna, ?_, ?_, ?_, ?_⟩ <;>
    simp [go_prev, go_next, hsub, hp, hn]

/-- Witness for C3 at the concrete fresh session `stateW`. -/
theorem nav_moves_and_reveals_witness :
    ∃ ap an,
      stateW.quiz.answers[stateW.quiz.current_index - 1]? = some ap ∧
      stateW.quiz.answers[min (stateW.quiz.current_index + 1)
        (stateW.quiz.biases.length - 1)]? = some an ∧
      (go_prev stateW).quiz.current_index = stateW.quiz.current_index - 1 ∧
      (go_prev stateW).revealed = ap.value.isSome ∧
      (go_next stateW).quiz.current_index =
        min (stateW.quiz.current_index + 1) (stateW.quiz.biases.length - 1) ∧
      (go_next stateW).revealed = an.value.isSome :=
  nav_moves_and_reveals stateW rfl rfl (by decide)

/-- C4: on an unsubmitted quiz at a non-boundary index (below N-1),
`goNext` followed by `goPrev` returns the cursor to the original index,
and the round trip leaves `revealed` equal to whether the original
question's answer has a set value. -/
theorem next_prev_roundtrip (s : AppState)
    (hsub : s.submitted = false)
    (hlen : s.quiz.answers.length = s.quiz.biases.length)
    (hidx : s.quiz.current_index < s.quiz.biases.length - 1) :
    (go_prev (go_next s)).quiz.current_index = s.quiz.current_index ∧
    ∃ a, s.quiz.answers[s.quiz.current_index]? = some a ∧
      (go_prev (go_next s)).revealed = a.value.isSome := by
  have hia : s.quiz.current_index < s.quiz.answers.length := by omega
  refine ⟨?_, s.quiz.answers.getD s.quiz.current_index defaultAnswer,
    getD_of_lt _ _ _ hia, ?_⟩ <;>
    simp [go_next, go_prev, hsub, hidx]

/-- Witness for C4 at the concrete fresh session `stateW`. -/
theorem next_prev_roundtrip_witness :
    (go_prev (go_next stateW)).quiz.current_index = stateW.quiz.current_index ∧
    ∃ a, stateW.quiz.answers[stateW.quiz.current_index]? = some a ∧
      (go_prev (go_next stateW)).revealed = a.value.isSome :=
  next_prev_roundtrip stateW rfl rfl (by decide)

/-- C9: `answer` only touches the current index's answer and the revealed
flag: every other answer, the claim list, the cursor and the submitted
flag are unchanged; and when the quiz is submitted, the claim list is
empty, or the cursor is out of bounds, the state is returned entirely
unchanged. -/
theorem answer_frame (s : AppState) (v : Bool) :
    (s.submitted = false → s.quiz.current_index < s.quiz.biases.length →
      (∀ j, j ≠ s.quiz.current_index →
        (set_answer v s).quiz.answers[j]? = s.quiz.answers[j]?) ∧
      (set_answer v s).quiz.biases = s.quiz.biases ∧
      (set_answer v s).quiz.current_index = s.quiz.current_index ∧
      (set_answer v s).submitted = s.submitted) ∧
    ((s.submitted = true ∨ s.quiz.biases = [] ∨
        s.quiz.biases.length ≤ s.quiz.current_index) →
      set_answer v s = s) := by
  constructor
  · intro hsub hidx
    have hng : ¬ s.quiz.biases.length ≤ s.quiz.current_index := Nat.not_le.mpr hidx
    refine ⟨?_, ?_, ?_, ?_⟩ <;>
      simp [set_answer, hsub, hng]
    intro j hj
    exact List.getElem?_set_ne (Ne.symm hj)
  · intro h
    by_cases hsub : s.submitted
    · simp [set_answer, hsub]
    · have hguard : s.quiz.biases.length ≤ s.quiz.current_index := by
        rcases h with h | h | h
        · simp [h] at hsub
        · simp [h]
        · exact h
      simp [set_answer, hsub, hguard]

/-- Witness for C9: the no-op branch at a concrete submitted state. -/
theorem answer_frame_witness : set_answer true sSubmittedW = sSubmittedW :=
  (answer_frame sSubmittedW true).2 (Or.inl rfl)

/-- C10: a boundary navigation call is not a full no-op: on an unsubmitted
quiz, `goPrev` at index 0 (and `goNext` at index N-1) leaves the cursor
unchanged but still recomputes `revealed` to whether the current
question's answer has a set value. -/
theorem boundary_nav_recomputes_reveal (s : AppState)
    (hsub : s.submitted = false)
    (hlen : s.quiz.answers.length = s.quiz.biases.length)
    (hpos : 0 < s.quiz.biases.length) :
    (s.quiz.current_index = 0 →
      (go_prev s).quiz.current_index = 0 ∧
      ∃ a, s.quiz.answers[0]? = some a ∧ (go_prev s).revealed = a.value.isSome) ∧
    (s.quiz.current_index = s.quiz.biases.length - 1 →
      (go_next s).quiz.current_index = s.quiz.current_index ∧
      ∃ a, s.quiz.answers[s.quiz.current_index]? = some a ∧
        (go_next s).revealed = a.value.isSome) := by
  constructor
  · intro h0
    have h0a : (0 : Nat) < s.quiz.answers.length := by omega
    refine ⟨?_, s.quiz.answers.getD 0 defaultAnswer, getD_of_lt _ _ _ h0a, ?_⟩ <;>
      simp [go_prev, hsub, h0]
  · intro hl
    have hne : ¬ s.quiz.current_index < s.quiz.biases.length - 1 := by omega
    have hla : s.quiz.current_index < s.quiz.answers.length := by omega
    refine ⟨?_, s.quiz.answers.getD s.quiz.current_index defaultAnswer,
      getD_of_lt _ _ _ hla, ?_⟩ <;>
      simp [go_next, hsub, hne]

/-- Witness for C10 at `sRevealedW` (panel open, question 0 unanswered):
the cursor stays at 0 while `revealed` is recomputed from the unanswered
question 0, flipping it to false. -/
theorem boundary_nav_recomputes_reveal_witness :
    (go_prev sRevealedW).quiz.current_index = 0 ∧
    ∃ a, sRevealedW.quiz.answers[0]? = some a ∧
      (go_prev sRevealedW).revealed = a.value.isSome :=
  (boundary_nav_recomputes_reveal sRevealedW rfl rfl (by decide)).1 rfl

/-- C5: `score` returns (correct, total) with total the number of
questions and correct the count of answers whose `is_correct` is true;
under the answers invariant an answer with no value never counts as
correct; on the run behind the spec's worked example (ground truths
true/false/true, user answers true/true/false) it returns (1, 3); and
when every answer's value matches its claim's ground truth it returns
(N, N). `score` is embedded as a pure function of the quiz, so it has no
side effect on it. -/
theorem score_counts_correct :
    (∀ q : Quiz, (score q).2 = q.biases.length ∧
      (score q).1 = q.answers.countP (fun a => a.is_correct == some true)) ∧
    (∀ q : Quiz, answersInv q → ∀ i, i < q.answers.length →
      (q.answers.getD i defaultAnswer).value = none →
      (q.answers.getD i defaultAnswer).is_correct ≠ some true) ∧
    score stateWFinal.quiz = (1, 3) ∧
    (∀ q : Quiz, answersInv q →
      (∀ i, i < q.answers.length →
        (q.answers.getD i defaultAnswer).value =
          some (q.biases.getD i defaultBias).is_authentic) →
      score q = (q.biases.length, q.biases.length)) := by
  refine ⟨?_, ?_, by decide, ?_⟩
  · intro q
    refine ⟨rfl, List.countP_congr ?_⟩
    intro a _
    cases h : a.is_correct with
    | none => simp [h]
    | some b => cases b <;> simp [h]
  · intro q hinv i hi hv
    have hc := hinv.2 i hi
    rw [hv] at hc
    rw [hc]
    simp
  · intro q hinv hall
    have hlen : q.answers.length = q.biases.length := hinv.1
    have hcount : q.answers.countP (fun a => a.is_correct.getD false) =
        q.answers.length := by
      refine List.countP_eq_length.mpr ?_
      intro a ha
      obtain ⟨i, hi, hia⟩ := List.mem_iff_getElem.mp ha
      have hgd : q.answers.getD i defaultAnswer = a := by
        simp [List.getD_eq_getElem?_getD, List.getElem?_eq_getElem hi, hia]
      have hc := hinv.2 i hi
      have hv := hall i hi
      rw [hgd] at hc hv
      rw [hc, hv]
      simp
    unfold score
    rw [hcount, hlen]

/-- Witness for C5: the all-correct branch at the concrete quiz
`quizAllCorrectW`. -/
theorem score_counts_correct_witness :
    score quizAllCorrectW = (quizAllCorrectW.biases.length, quizAllCorrectW.biases.length) :=
  score_counts_correct.2.2.2 quizAllCorrectW (by decide) (by decide)

/-- The loader's candidate scan comes up empty exactly when every
candidate source has no records. -/
lemma firstFound_eq_nil (sources : List (List RawBias)) :
    firstFound sources = [] ↔ ∀ src ∈ sources, src = [] := by
  induction sources with
  | nil => simp [firstFound]
  | cons s rest ih =>
    by_cases hs : s.isEmpty
    · have hsnil : s = [] := List.isEmpty_iff.mp hs
      simp [firstFound, hs, hsnil, ih]
    · have hsne : s ≠ [] := fun h => hs (List.isEmpty_iff.mpr h)
      simp [firstFound, hs, hsne]

/-- Shape of a successfully created quiz: cursor at 0 and one fresh
unanswered answer per claim. -/
lemma create_quiz_ok (shuffle : List RawBias → List RawBias)
    (sources : List (List RawBias)) (q : Quiz)
    (h : create_quiz shuffle sources = Except.ok q) :
    q.current_index = 0 ∧ q.answers = q.biases.map (fun _ => defaultAnswer) := by
  unfold create_quiz load_and_shuffle_data at h
  by_cases hd : (firstFound sources).isEmpty
  · simp [hd] at h
  · simp [hd] at h
    rw [← h]
    exact ⟨rfl, by simp [List.map_take, List.map_map]⟩

/-- C7: creation fails with the no-data error exactly when every candidate
source yields no records; in that case the fresh session is left without a
quiz; on success the fresh session holds a quiz with one unanswered answer
per claim, cursor at 0, and both flags false. -/
theorem create_fails_iff_no_data (shuffle : List RawBias → List RawBias)
    (sources : List (List RawBias)) :
    (get_state shuffle sources).revealed = false ∧
    (get_state shuffle sources).submitted = false ∧
    ((∀ src ∈ sources, src = []) ↔
      create_quiz shuffle sources = Except.error LoadError.noData) ∧
    ((∀ src ∈ sources, src = []) → (get_state shuffle sources).quiz = none) ∧
    (∀ q, create_quiz shuffle sources = Except.ok q →
      (get_state shuffle sources).quiz = some q ∧ q.current_index = 0 ∧
      q.answers.length = q.biases.length ∧ ∀ a ∈ q.answers, a = defaultAnswer) := by
  have herr : (∀ src ∈ sources, src = []) ↔
      create_quiz shuffle sources = Except.error LoadError.noData := by
    rw [← firstFound_eq_nil, ← List.isEmpty_iff]
    unfold create_quiz load_and_shuffle_data
    by_cases hd : (firstFound sources).isEmpty <;> simp [hd]
  refine ⟨?_, ?_, herr, ?_, ?_⟩
  · cases h : create_quiz shuffle sources <;> simp [get_state, h]
  · cases h : create_quiz shuffle sources <;> simp [get_state, h]
  · intro hall
    have h := herr.mp hall
    simp [get_state, h]
  · intro q hq
    obtain ⟨hidx, hans⟩ := create_quiz_ok shuffle sources q hq
    refine ⟨by simp [get_state, hq], hidx, by simp [hans], ?_⟩
    intro a ha
    rw [hans] at ha
    obtain ⟨b, _, hb⟩ := List.mem_map.mp ha
    exact hb.symm

/-- Witness for C7: with no candidate sources at all, the fresh session
has no quiz value. -/
theorem create_fails_iff_no_data_witness :
    (get_state id ([] : List (List RawBias))).quiz = none :=
  (create_fails_iff_no_data id []).2.2.2.1 (by simp)

/-- C8: whatever the prior state (mid-quiz or post-submission), a
successful restart yields a session whose quiz has the cursor at 0, both
flags false, and every answer cleared (value and correctness unset). -/
theorem restart_resets (shuffle : List RawBias → List RawBias)
    (sources : List (List RawBias)) (s t : AppState)
    (h : restart_quiz shuffle sources s = Except.ok t) :
    t.quiz.current_index = 0 ∧ t.revealed = false ∧ t.submitted = false ∧
    t.quiz.answers.length = t.quiz.biases.length ∧
    ∀ a ∈ t.quiz.answers, a.value = none ∧ a.is_correct = none := by
  unfold restart_quiz at h
  cases hc : create_quiz shuffle sources with
  | error e => rw [hc] at h; simp at h
  | ok q =>
    rw [hc] at h
    simp at h
    obtain ⟨hidx, hans⟩ := create_quiz_ok shuffle sources q hc
    rw [← h]
    refine ⟨hidx, rfl, rfl, by simp [hans], ?_⟩
    intro a ha
    rw [hans] at ha
    obtain ⟨b, _, hb⟩ := List.mem_map.mp ha
    rw [← hb]
    exact ⟨rfl, rfl⟩

/-- Witness for C8: restarting the concrete submitted session
`sSubmittedW` from the single source `[rawW true]`. -/
theorem restart_resets_witness :
    tRestartW.quiz.current_index = 0 ∧ tRestartW.revealed = false ∧
    tRestartW.submitted = false ∧
    tRestartW.quiz.answers.length = tRestartW.quiz.biases.length ∧
    ∀ a ∈ tRestartW.quiz.answers, a.value = none ∧ a.is_correct = none :=
  restart_resets id [[rawW true]] sSubmittedW tRestartW rfl

/-- A successfully created quiz satisfies the answers invariant. -/
lemma answersInv_create (shuffle : List RawBias → List RawBias)
    (sources : List (List RawBias)) (q : Quiz)
    (h : create_quiz shuffle sources = Except.ok q) : answersInv q := by
  obtain ⟨_, hans⟩ := create_quiz_ok shuffle sources q h
  constructor
  · rw [hans]; simp
  · intro i hi
    have hib : i < q.biases.length := by
      rw [hans] at hi; simpa using hi
    have hgd : q.answers.getD i defaultAnswer = defaultAnswer := by
      rw [hans]
      simp [List.getD_eq_getElem?_getD, List.getElem?_eq_getElem, hib]
    rw [hgd]
    rfl

/-- `set_answer` preserves the answers invariant. -/
lemma answersInv_set_answer (v : Bool) (s : AppState) (h : answersInv s.quiz) :
    answersInv (set_answer v s).quiz := by
  by_cases hsub : s.submitted
  · simpa [set_answer, hsub] using h
  · by_cases hg : s.quiz.biases.length ≤ s.quiz.current_index
    · simpa [set_answer, hsub, hg] using h
    · have hidx : s.quiz.current_index < s.quiz.biases.length := Nat.lt_of_not_le hg
      have hia : s.quiz.current_index < s.quiz.answers.length := by
        have := h.1; omega
      constructor
      · simp [set_answer, hsub, hg, h.1]
      · intro i hi
        have hi2 : i < s.quiz.answers.length := by
          simpa [set_answer, hsub, hg] using hi
        by_cases hij : i = s.quiz.current_index
        · subst hij
          simp only [set_answer, hsub, hg]
          simp [List.getD_eq_getElem?_getD, List.getElem?_set_self, hia]
        · have hne : s.quiz.current_index ≠ i := fun hh => hij hh.symm
          have hrw : (s.quiz.answers.set s.quiz.current_index
              (Answer.mk (some v)
                (some (v == (s.quiz.biases.getD s.quiz.current_index
                  defaultBias).is_authentic)))).getD i defaultAnswer =
              s.quiz.answers.getD i defaultAnswer := by
            simp [List.getD_eq_getElem?_getD, List.getElem?_set_ne hne]
          simp only [set_answer, hsub, hg, if_neg, Bool.false_eq_true,
            if_false, Nat.le_refl]
          rw [hrw]
          exact h.2 i hi2

/-- `go_prev` preserves the answers invariant (it never touches the
answer or claim lists). -/
lemma answersInv_go_prev (s : AppState) (h : answersInv s.quiz) :
    answersInv (go_prev s).quiz := by
  by_cases hsub : s.submitted
  · simpa [go_prev, hsub] using h
  · obtain ⟨h1, h2⟩ := h
    exact ⟨by simpa [go_prev, hsub] using h1, by simpa [go_prev, hsub] using h2⟩

/-- `go_next` preserves the answers invariant (it never touches the
answer or claim lists). -/
lemma answersInv_go_next (s : AppState) (h : answersInv s.quiz) :
    answersInv (go_next s).quiz := by
  by_cases hsub : s.submitted
  · simpa [go_next, hsub] using h
  · obtain ⟨h1, h2⟩ := h
    exact ⟨by simpa [go_next, hsub] using h1, by simpa [go_next, hsub] using h2⟩

/-- C1: in every reachable state of the app the answers/claims consistency
invariant holds: for each index, `is_correct` is set iff `value` is set
and then equals `value == is_authentic`; it holds after quiz creation and
is preserved by `answer`, `goPrev`, `goNext`, submit and restart. -/
theorem quiz_state_invariant (s : AppState) (h : Reachable s) :
    answersInv s.quiz := by
  induction h with
  | init shuffle sources q hq => exact answersInv_create shuffle sources q hq
  | answer_step v s hs ih => exact answersInv_set_answer v s ih
  | prev_step s hs ih => exact answersInv_go_prev s ih
  | next_step s hs ih => exact answersInv_go_next s ih
  | submit_step s hs ih => exact ih
  | restart_step shuffle sources s t hs hr ih =>
    unfold restart_quiz at hr
    cases hc : create_quiz shuffle sources with
    | error e => rw [hc] at hr; simp at hr
    | ok q =>
      rw [hc] at hr
      simp at hr
      rw [← hr]
      exact answersInv_create shuffle sources q hc

/-- Witness for C1 at the concrete reachable state `stateWFinal` (created
from three records, then answered and navigated as in the spec's worked
example). -/
theorem quiz_state_invariant_witness : answersInv stateWFinal.quiz := by
  have h0 : Reachable stateW :=
    Reachable.init id [[rawW true, rawW false, rawW true]] quizW rfl
  exact quiz_state_invariant stateWFinal
    (Reachable.answer_step false _
      (Reachable.next_step _
        (Reachable.answer_step true _
          (Reachable.next_step _
            (Reachable.answer_step true _ h0)))))

end Biases
